import Mathlib

/-!
Shallow embedding of `recorder/management/commands/rec_service.py` (camrec).

Core pieces of the daemon modelled here:
* `StreamRecorder.start` / `close` / `stop`  (per-source capture handle),
* `Command.restart` / `Command.stop`         (process supervisor),
* `Command.cleanup_old_files`                (retention engine),
* `Command.handle_dir_change_tasks`          (relocation handler, mv / rm),
* the exception behaviour of the `handle` control loop.

Filesystem and OS effects are made explicit: free-space measurements are an
oracle `measure : Nat → Nat` (bytes reported by `shutil.disk_usage` after a
given number of deletions), subprocess/file side effects are recorded as event
traces, and per-call failure points (ffmpeg resolvable, move raises, rmtree
outcome, graceful exit within the 5 s wait) are boolean/enum oracles.
-/

namespace Camrec

/-- Constant `GB_DIVIDER = 1 << 30` from the source. -/
def GB_DIVIDER : Nat := 1 <<< 30

/-- The comparison `free / GB_DIVIDER >= min_free_gb` from
`cleanup_old_files`, with the real-number division eliminated:
for an integer threshold `m`, `free / 2^30 ≥ m ↔ m * 2^30 ≤ free`.
(`min_free_gb` is a `PositiveSmallIntegerField`, hence a natural number.) -/
def satisfied (minFreeGb free : Nat) : Bool :=
  decide (minFreeGb * GB_DIVIDER ≤ free)

/-- A candidate segment file found by `records_dir.rglob(f"*.{SEGMENT_FORMAT}")`:
its name and its `st_mtime` (modelled as a natural number). -/
structure FileEnt where
  name : String
  mtime : Nat
deriving DecidableEq, Repr

/-- Ordering used by `sorted(..., key=lambda p: p.stat().st_mtime)`. -/
def mtimeLE (a b : FileEnt) : Prop := a.mtime ≤ b.mtime

instance : DecidableRel mtimeLE := fun a b => Nat.decLe a.mtime b.mtime

instance : IsTotal FileEnt mtimeLE := ⟨fun a b => Nat.le_total a.mtime b.mtime⟩

instance : IsTrans FileEnt mtimeLE := ⟨fun _ _ _ => Nat.le_trans⟩

/-- Model of `sorted(self.records_dir.rglob(...), key=lambda p: p.stat().st_mtime)`:
the candidate files in ascending last-modification-time order. -/
def sortByMtime (fs : List FileEnt) : List FileEnt :=
  List.insertionSort mtimeLE fs

/-- Events emitted by one retention pass: `self.stop()` (stop all active
recordings) and `file.unlink(...)` (delete one segment file). -/
inductive REv where
  | stopAll
  | del (name : String)
deriving DecidableEq, Repr

/-- The deletion `for` loop of `cleanup_old_files`.  `k` is the number of
files deleted so far; `measure j` is the free-byte count reported by
`shutil.disk_usage` after the `j`-th deletion (`measure 0` is the initial
measurement).  Returns the emitted delete events, the final value of
`files_deleted`, and whether the loop exited via `break` (threshold met). -/
def evictLoop (minFreeGb : Nat) (measure : Nat → Nat) :
    List FileEnt → Nat → List REv × Nat × Bool
  | [], k => ([], k, false)
  | f :: fs, k =>
    if satisfied minFreeGb (measure (k + 1)) then
      ([REv.del f.name], k + 1, true)
    else
      let r := evictLoop minFreeGb measure fs (k + 1)
      (REv.del f.name :: r.1, r.2.1, r.2.2)

/-- Result of one retention pass: the event trace, the state of the
`stop.flag` file afterwards, and how many files were deleted. -/
structure CleanupOut where
  events : List REv
  stopFlag : Bool
  filesDeleted : Nat
deriving DecidableEq, Repr

/-- Model of `Command.cleanup_old_files`.  Returns immediately when the threshold is
`0` (`min_free_gb <= 0`) or the initial measurement already satisfies it.
Otherwise sorts the candidates by mtime, stops all recordings when at least
one candidate exists, runs the deletion loop, and — via the `for`/`else` —
touches `stop.flag` exactly when the loop finished without `break`.
`stopFlag0` is whether `stop.flag` existed before the pass (`touch` with
`exist_ok=True` never removes an existing flag). -/
def cleanup_old_files (minFreeGb : Nat) (measure : Nat → Nat)
    (files : List FileEnt) (stopFlag0 : Bool) : CleanupOut :=
  if minFreeGb = 0 then ⟨[], stopFlag0, 0⟩
  else if satisfied minFreeGb (measure 0) then ⟨[], stopFlag0, 0⟩
  else
    let fs := sortByMtime files
    let pre : List REv := if fs.isEmpty then [] else [REv.stopAll]
    let r := evictLoop minFreeGb measure fs 0
    ⟨pre ++ r.1, if r.2.2 then stopFlag0 else true, r.2.1⟩

/-- Replay of a retention event trace against the tracked
recorder list: `self.stop()` stops every recorder and clears the list
(`self.recorders.clear()`), a file deletion does not touch it. -/
def replayRecs (recs : List α) : List REv → List α
  | [] => recs
  | REv.stopAll :: evs => replayRecs ([] : List α) evs
  | REv.del _ :: evs => replayRecs recs evs

/-! ### Process supervisor: `StreamRecorder` and `Command.restart` / `stop` -/

/-- Side-effect events of a `StreamRecorder` (per stream id). -/
inductive SEv where
  | mkdirRec (sid : Nat)
  | openLogW (sid : Nat)
  | closeLog (sid : Nat)
  | popen (sid : Nat)
  | terminate (sid : Nat)
  | kill (sid : Nat)
deriving DecidableEq, Repr

/-- A `StreamRecorder`: stream id, `self.process` (`none` = the attribute is
`None`; `some true` = subprocess with `poll() is None`, i.e. still running;
`some false` = subprocess object present but already exited), and
`self.logfile` (`true` = an open handle, `false` = `None`; the code sets the
attribute back to `None` right after closing). -/
structure Recorder where
  sid : Nat
  process : Option Bool
  logfile : Bool
deriving DecidableEq, Repr

/-- Model of `StreamRecorder.__init__`: `self.process = self.logfile = None`. -/
def Recorder.init (sid : Nat) : Recorder := ⟨sid, none, false⟩

/-- Model of `StreamRecorder.close`: closes the logfile if open, else no-op. -/
def Recorder.close (r : Recorder) : Recorder × List SEv :=
  if r.logfile then ({ r with logfile := false }, [SEv.closeLog r.sid])
  else (r, [])

/-- Model of `StreamRecorder.start`: `mkdir` the record directory, `close()` any old
log handle, open (truncate) `ffmpeg.log`, then check `shutil.which("ffmpeg")`
(`ffmpegFound` oracle).  If the binary is missing it returns `False` right
there — the log handle stays open and no subprocess is launched.  Otherwise
`Popen` and return `True`. -/
def Recorder.start (r : Recorder) (ffmpegFound : Bool) :
    Bool × Recorder × List SEv :=
  let c := r.close
  let r1 := { c.1 with logfile := true }
  let evs := SEv.mkdirRec r.sid :: c.2 ++ [SEv.openLogW r.sid]
  if ffmpegFound then
    (true, { r1 with process := some true }, evs ++ [SEv.popen r.sid])
  else
    (false, r1, evs)

/-- Model of `StreamRecorder.stop`: `close()`, then only if the subprocess exists and
is still running (`poll() is None`) terminate it, wait up to 5 s
(`graceful` oracle: did it exit within the grace period), kill it otherwise,
and set `self.process = None`. -/
def Recorder.stop (r : Recorder) (graceful : Bool) : Recorder × List SEv :=
  let c := r.close
  match c.1.process with
  | some true =>
      ({ c.1 with process := none },
        c.2 ++ [SEv.terminate r.sid] ++ if graceful then [] else [SEv.kill r.sid])
  | _ => c

/-- Body of `Command.stop`: stop every tracked recorder in order (the `i`-th
stop uses the oracle `grace i`), collecting events. -/
def stopList (grace : Nat → Bool) : List Recorder → Nat → List SEv
  | [], _ => []
  | r :: rs, i => (r.stop (grace i)).2 ++ stopList grace rs (i + 1)

/-- Supervisor-level state of `Command`: the tracked recorder list and the
`stop.flag` / `restart.flag` files. -/
structure Cmd where
  recorders : List Recorder
  stopFlag : Bool
  restartFlag : Bool
deriving DecidableEq, Repr

/-- Model of `Command.stop`: stop all tracked recorders, then `self.recorders.clear()`. -/
def Cmd.stopAll (c : Cmd) (grace : Nat → Bool) : Cmd × List SEv :=
  ({ c with recorders := [] }, stopList grace c.recorders 0)

/-- The `for stream in Stream.objects.all()` loop of `Command.restart`:
for each source a fresh `StreamRecorder` is appended to the tracked list
*before* `r.start()` is called; `started += r.start()` adds the boolean.
Returns (recorders appended, started count, number of `start` calls made,
events). -/
def startEach (ffmpeg : Nat → Bool) : List Nat → List Recorder × Nat × Nat × List SEv
  | [] => ([], 0, 0, [])
  | sid :: rest =>
    let s := (Recorder.init sid).start (ffmpeg sid)
    let r := startEach ffmpeg rest
    (s.2.1 :: r.1, (if s.1 then 1 else 0) + r.2.1, r.2.2.1 + 1, s.2.2 ++ r.2.2.2)

/-- Model of `Command.restart`: `self.stop()`, then start one fresh recorder per
source, then unlink both `stop.flag` and `restart.flag` (`missing_ok=True`).
Returns the new state, the final `started` count, the number of `start`
calls, and the event trace. -/
def Cmd.restart (c : Cmd) (sources : List Nat) (ffmpeg : Nat → Bool)
    (grace : Nat → Bool) : Cmd × Nat × Nat × List SEv :=
  let s := c.stopAll grace
  let r := startEach ffmpeg sources
  (⟨r.1, false, false⟩, r.2.1, r.2.2.1, s.2 ++ r.2.2.2)

/-! ### Relocation handler: `Command.handle_dir_change_tasks` -/

/-- The `for item in old_path.iterdir(): shutil.move(...)` loop, which sits
*inside* a single `try`: items are moved in order until the first one whose
move raises; that exception is caught outside the loop, so the remaining
items are not attempted.  Returns (items moved, first failing item). -/
def moveChildren (fails : String → Bool) : List String → List String × Option String
  | [] => ([], none)
  | x :: xs =>
    if fails x then ([], some x)
    else
      let r := moveChildren fails xs
      (x :: r.1, r.2)

/-- Outcome of processing an existing `mv.flag` whose payload directory
exists and is a directory. -/
structure MoveOut where
  stoppedRecording : Bool
  moved : List String
  failedItem : Option String
  remainingOld : List String
  oldRootRemoved : Bool
  newContents : List String
  mvFlagAfter : Bool
  firstRunSet : Bool
deriving DecidableEq, Repr

/-- The `move_flag` branch of `handle_dir_change_tasks`, in the case where
the old path exists and is a directory: stop all recordings, move children
until the first failure (the surrounding `try` catches it and skips the
rest, including the `shutil.rmtree(old_path, ignore_errors=True)`), then
unlink `mv.flag` and set `self._first_run = True`.  `oldItems` is the
`iterdir()` order, `newContents0` the names already present in the new
records root, `fails` the per-item move-failure oracle. -/
def handle_move (oldItems : List String) (newContents0 : List String)
    (fails : String → Bool) : MoveOut :=
  let r := moveChildren fails oldItems
  { stoppedRecording := true
    moved := r.1
    failedItem := r.2
    remainingOld := oldItems.drop r.1.length
    oldRootRemoved := r.2.isNone
    newContents := newContents0 ++ r.1
    mvFlagAfter := false
    firstRunSet := true }

/-- Outcome of one `shutil.rmtree(old_path)` call as the code distinguishes
them: success, `PermissionError` (backoff branch), any other exception
(logged-only branch). -/
inductive RmOut where
  | ok
  | permErr
  | otherErr
deriving DecidableEq, Repr

/-- Events of the `rm.flag` branch. -/
inductive DEv where
  | stopAll
  | rmtreeOk
  | rmtreePermFail
  | rmtreeOtherFail
  | sleep5
deriving DecidableEq, Repr

/-- One iteration of `for _ in range(2)`: call `shutil.rmtree(old_path)`.
If the directory was already deleted by a previous iteration the call raises
`FileNotFoundError`, which the `except Exception` arm catches and logs.
`PermissionError` additionally sleeps 5 s.  Returns the events of this
iteration and whether the directory exists afterwards. -/
def rmAttempt (dirExists : Bool) (outcome : RmOut) : List DEv × Bool :=
  if dirExists then
    match outcome with
    | RmOut.ok => ([DEv.rmtreeOk], false)
    | RmOut.permErr => ([DEv.rmtreePermFail, DEv.sleep5], true)
    | RmOut.otherErr => ([DEv.rmtreeOtherFail], true)
  else ([DEv.rmtreeOtherFail], false)

/-- Outcome of processing an existing `rm.flag` whose payload directory
exists and is a directory. -/
structure DeleteOut where
  events : List DEv
  rmtreeCalls : Nat
  dirDeleted : Bool
  rmFlagAfter : Bool
deriving DecidableEq, Repr

/-- The `delete_flag` branch of `handle_dir_change_tasks`, in the case where
the old path exists and is a directory: stop all recordings, then run the
`for _ in range(2)` loop — note there is no `break` after a successful
`rmtree`, so exactly two `rmtree` calls are always made — and finally unlink
`rm.flag`.  `outcome i` is the result of the `i`-th `rmtree` call while the
directory still exists. -/
def handle_delete (outcome : Nat → RmOut) : DeleteOut :=
  let a0 := rmAttempt true (outcome 0)
  let a1 := rmAttempt a0.2 (outcome 1)
  { events := DEv.stopAll :: a0.1 ++ a1.1
    rmtreeCalls := 2
    dirDeleted := !a1.2
    rmFlagAfter := false }

/-! ### Exception behaviour of the `handle` control loop -/

/-- A Python exception escaping the body of one tick of the `while True`
loop, e.g. an `OSError` from `move_flag.unlink()` in step 2 or from
`shutil.disk_usage` / `stop_flag_file.touch()` in step 3. -/
inductive PyExc where
  | keyboardInterrupt
  | error (name : String)
deriving DecidableEq, Repr

/-- How a bounded run of `Command.handle` ends. -/
inductive LoopExit where
  | outOfFuel
  | interrupted
  | crashed (name : String)
deriving DecidableEq, Repr

/-- Model of `Command.handle`: `try: while True: <body> except KeyboardInterrupt:
stop()`.  `exc t` is the first exception escaping the body of tick `t`
(`none` if the tick completes).  The only `except` clause around the loop
names `KeyboardInterrupt`, so that is the only exception that ends the run
gracefully; every other exception propagates out of `handle` and the loop
is gone (`crashed`). -/
def runHandle (exc : Nat → Option PyExc) : Nat → Nat → LoopExit
  | _, 0 => LoopExit.outOfFuel
  | t, fuel + 1 =>
    match exc t with
    | none => runHandle exc (t + 1) fuel
    | some PyExc.keyboardInterrupt => LoopExit.interrupted
    | some (PyExc.error e) => LoopExit.crashed e

/-- Outcome of one `r.start()` call inside the `for` loop of `Command.restart`:
a boolean return, or an exception (e.g. `OSError` from `Popen`). -/
inductive StartOut where
  | ret (b : Bool)
  | exc (e : String)
deriving DecidableEq, Repr

/-- The `for stream in Stream.objects.all(): ... started += r.start()` loop
with possible per-call exceptions.  There is no `try` inside the loop, so
the first exception aborts it and propagates out of `restart`.  Returns
(number of `start` calls made, final `started`, escaping exception if any). -/
def restartForLoop : List StartOut → Nat × Nat × Option String
  | [] => (0, 0, none)
  | StartOut.ret b :: rest =>
    let r := restartForLoop rest
    (r.1 + 1, (if b then 1 else 0) + r.2.1, r.2.2)
  | StartOut.exc e :: _ => (1, 0, some e)

/-! ### Helper lemmas -/

theorem startEach_recorders (ffmpeg : Nat → Bool) :
    ∀ l : List Nat,
      (startEach ffmpeg l).1 =
        l.map (fun sid => ((Recorder.init sid).start (ffmpeg sid)).2.1)
  | [] => rfl
  | _ :: rest => by
    simp only [startEach, List.map_cons]
    rw [startEach_recorders ffmpeg rest]

theorem startEach_started (ffmpeg : Nat → Bool) :
    ∀ l : List Nat, (startEach ffmpeg l).2.1 = l.countP ffmpeg
  | [] => rfl
  | sid :: rest => by
    simp only [startEach, List.countP_cons, startEach_started ffmpeg rest]
    cases ffmpeg sid <;> simp [Recorder.start]
    omega

theorem startEach_attempts (ffmpeg : Nat → Bool) :
    ∀ l : List Nat, (startEach ffmpeg l).2.2.1 = l.length
  | [] => rfl
  | _ :: rest => by
    simp only [startEach, List.length_cons, startEach_attempts ffmpeg rest]

/-! ### Claim theorems: process supervisor -/

/-- C7: stop on a capture handle is idempotent.  For every handle on which
`start` succeeded (the capture binary was resolvable), `start` followed
immediately by `stop` leaves no tracked running subprocess
(`process = none`) and closes the log sink exactly once (exactly one
`closeLog` event in the stop); a second `stop` on the already-stopped handle
is a no-op: it returns the state unchanged with an empty event trace
(nothing is closed, terminated or killed, and the model is total so nothing
is raised).  `g` and `g2` are the oracles for whether the subprocess exits
within the 5 second grace period. -/
theorem C7_stop_idempotent (r : Recorder) (g g2 : Bool) :
    (r.start true).1 = true ∧
    ((r.start true).2.1.stop g).1.process = none ∧
    ((r.start true).2.1.stop g).2.count (SEv.closeLog r.sid) = 1 ∧
    ((r.start true).2.1.stop g).1.stop g2 = (((r.start true).2.1.stop g).1, []) :=
  by cases hr : r.logfile <;> cases g <;>
    simp [Recorder.start, Recorder.stop, Recorder.close, hr]

/-- C9: the failed-start path is not side-effect-free.  When the capture
binary is unresolvable (`ffmpegFound = false`), `start` returns `false` and
launches no subprocess (`process` unchanged, no `popen` event), but it has
already created the recording directory (`mkdirRec` event) and opened,
truncating, the per-source `ffmpeg.log` sink (`openLogW` event), and it
leaves that log handle open (`logfile = true` in the resulting state; the
last event is the open, never followed by a close). -/
theorem C9_failed_start_side_effects (r : Recorder) :
    (r.start false).1 = false ∧
    (r.start false).2.1.process = r.process ∧
    SEv.popen r.sid ∉ (r.start false).2.2 ∧
    SEv.mkdirRec r.sid ∈ (r.start false).2.2 ∧
    SEv.openLogW r.sid ∈ (r.start false).2.2 ∧
    (r.start false).2.2.getLast? = some (SEv.openLogW r.sid) ∧
    (r.start false).2.1.logfile = true :=
  by cases hr : r.logfile <;>
    simp [Recorder.start, Recorder.close, hr]

/-- C6: `restart_all` over a registry of `N` sources is equivalent to
`stop_all` followed by one start attempt per source: the resulting tracked
set and start events depend only on the sources (not on the prior state),
the event trace is the stop_all trace followed by the start traces, exactly
`N` start calls are made, the reported started count equals the number of
start calls that returned `true`, and both the stop and restart signal
files are deleted afterwards regardless of individual start failures. -/
theorem C6_restart_all (c : Cmd) (sources : List Nat) (ffmpeg : Nat → Bool)
    (grace : Nat → Bool) :
    (c.restart sources ffmpeg grace).2.2.1 = sources.length ∧
    (c.restart sources ffmpeg grace).2.1 = sources.countP ffmpeg ∧
    (c.restart sources ffmpeg grace).1.stopFlag = false ∧
    (c.restart sources ffmpeg grace).1.restartFlag = false ∧
    (c.restart sources ffmpeg grace).1.recorders = (startEach ffmpeg sources).1 ∧
    (c.restart sources ffmpeg grace).2.2.2 =
      (c.stopAll grace).2 ++ (startEach ffmpeg sources).2.2.2 :=
  ⟨startEach_attempts ffmpeg sources, startEach_started ffmpeg sources,
    rfl, rfl, rfl, rfl⟩

/-- C10: after every `restart_all` over `N` sources the tracked-handle set
contains exactly `N` handles, one per source in registry order — including
sources whose start returned `false`, because the handle is appended before
the launch attempt: a failed start leaves a tracked handle with no
subprocess and an open log sink.  A subsequent stop on such a never-launched
handle only closes its log sink (a single `closeLog` event, no terminate or
kill). -/
theorem C10_tracked_handles (c : Cmd) (sources : List Nat)
    (ffmpeg : Nat → Bool) (grace : Nat → Bool) :
    (c.restart sources ffmpeg grace).1.recorders =
      sources.map (fun sid => ((Recorder.init sid).start (ffmpeg sid)).2.1) ∧
    (c.restart sources ffmpeg grace).1.recorders.length = sources.length ∧
    (∀ sid, ffmpeg sid = false →
      ((Recorder.init sid).start (ffmpeg sid)).2.1 =
        ⟨sid, none, true⟩) ∧
    (∀ rec : Recorder, rec.process = none → rec.logfile = true → ∀ g,
      rec.stop g = ({ rec with logfile := false }, [SEv.closeLog rec.sid])) := by
  refine ⟨startEach_recorders ffmpeg sources, ?_, ?_, ?_⟩
  · show (startEach ffmpeg sources).1.length = sources.length
    rw [startEach_recorders ffmpeg sources, List.length_map]
  · intro sid h
    simp [Recorder.start, Recorder.init, Recorder.close, h]
  · intro rec hp hl g
    simp [Recorder.stop, Recorder.close, hl, hp]

/-! ### Claim theorems: relocation handler -/

theorem moveChildren_no_fail (fails : String → Bool) :
    ∀ items : List String, (∀ y ∈ items, fails y = false) →
      moveChildren fails items = (items, none)
  | [], _ => rfl
  | x :: xs, h => by
    have hx : fails x = false := h x (List.mem_cons_self x xs)
    have hxs := moveChildren_no_fail fails xs (fun y hy => h y (List.mem_cons_of_mem x hy))
    simp [moveChildren, hx, hxs]

theorem moveChildren_first_fail (fails : String → Bool) (x : String)
    (hx : fails x = true) :
    ∀ (pre : List String), (∀ y ∈ pre, fails y = false) → ∀ post : List String,
      moveChildren fails (pre ++ x :: post) = (pre, some x)
  | [], _, post => by simp [moveChildren, hx]
  | p :: pre, h, post => by
    have hp : fails p = false := h p (List.mem_cons_self p pre)
    have hpre := moveChildren_first_fail fails x hx pre
      (fun y hy => h y (List.mem_cons_of_mem p hy)) post
    simp [moveChildren, hp, hpre]

/-- C3 counterexample to the claim as stated: the `try` in the move branch
wraps the whole `for item in old_path.iterdir()` loop, so when moving the
first child `"a"` of `["a", "b"]` fails, the exception is caught outside the
loop and the move of `"b"` — a child entry other than the failing one — is
never attempted: nothing is moved, both items remain in the previous root. -/
theorem C3_counterexample :
    (handle_move ["a", "b"] [] (fun s => s == "a")).failedItem = some "a" ∧
    (handle_move ["a", "b"] [] (fun s => s == "a")).moved = [] ∧
    (handle_move ["a", "b"] [] (fun s => s == "a")).remainingOld = ["a", "b"] ∧
    (handle_move ["a", "b"] [] (fun s => s == "a")).newContents = [] := by
  decide

/-- C3 (amended): when the Relocation Handler processes a move-pending
signal whose previous root exists and is a directory, a failure while
moving one child item is caught and logged and does not crash the handler —
the signal file is still deleted and a restart is still flagged — but it
aborts the per-item loop: exactly the items before the failing one are
moved, the child entries after the failing one are not attempted (they
remain in the previous root together with the failing item), and the
previous root is not removed. -/
theorem C3_move_failure_aborts_rest (pre post : List String) (x : String)
    (newC : List String) (fails : String → Bool)
    (hpre : ∀ y ∈ pre, fails y = false) (hx : fails x = true) :
    (handle_move (pre ++ x :: post) newC fails).moved = pre ∧
    (handle_move (pre ++ x :: post) newC fails).failedItem = some x ∧
    (handle_move (pre ++ x :: post) newC fails).remainingOld = x :: post ∧
    (handle_move (pre ++ x :: post) newC fails).oldRootRemoved = false ∧
    (handle_move (pre ++ x :: post) newC fails).newContents = newC ++ pre ∧
    (handle_move (pre ++ x :: post) newC fails).mvFlagAfter = false ∧
    (handle_move (pre ++ x :: post) newC fails).firstRunSet = true := by
  have h := moveChildren_first_fail fails x hx pre hpre post
  simp [handle_move, h, List.drop_left]

/-- C3 witness: concrete instance of the amended statement with previous
root `["a", "b", "c"]`, failing item `"b"`. -/
theorem C3_witness :
    (∀ y ∈ ["a"], (y == "b") = false) ∧
    (handle_move ["a", "b", "c"] ["x"] (fun s => s == "b")).moved = ["a"] ∧
    (handle_move ["a", "b", "c"] ["x"] (fun s => s == "b")).remainingOld = ["b", "c"] :=
  ⟨by decide,
    (C3_move_failure_aborts_rest ["a"] ["c"] "b" ["x"] (fun s => s == "b")
      (by decide) (by decide)).1,
    (C3_move_failure_aborts_rest ["a"] ["c"] "b" ["x"] (fun s => s == "b")
      (by decide) (by decide)).2.2.1⟩

/-- C8: after the Relocation Handler processes a move-pending signal whose
previous root exists, is a directory, and contains files `a` and `b`, with
no move failures, both files exist as direct children of the new records
root, the previous root is empty and has been removed, and the `mv.flag`
signal file no longer exists. -/
theorem C8_move_success (items newC : List String) (a b : String)
    (fails : String → Bool) (ha : a ∈ items) (hb : b ∈ items)
    (hnf : ∀ y ∈ items, fails y = false) :
    a ∈ (handle_move items newC fails).newContents ∧
    b ∈ (handle_move items newC fails).newContents ∧
    (handle_move items newC fails).remainingOld = [] ∧
    (handle_move items newC fails).oldRootRemoved = true ∧
    (handle_move items newC fails).mvFlagAfter = false := by
  have h := moveChildren_no_fail fails items hnf
  refine ⟨?_, ?_, ?_, ?_, ?_⟩ <;>
    simp [handle_move, h, List.drop_length, ha, hb]

/-- C8 witness: previous root containing exactly `a` and `b`, no failures. -/
theorem C8_witness :
    "a" ∈ (["a", "b"] : List String) ∧ (∀ y ∈ ["a", "b"], ((fun _ : String => false) y) = false) ∧
    "a" ∈ (handle_move ["a", "b"] [] (fun _ => false)).newContents ∧
    "b" ∈ (handle_move ["a", "b"] [] (fun _ => false)).newContents ∧
    (handle_move ["a", "b"] [] (fun _ => false)).remainingOld = [] :=
  ⟨by decide, by decide,
    (C8_move_success ["a", "b"] [] "a" "b" (fun _ => false)
      (by decide) (by decide) (by decide)).1,
    (C8_move_success ["a", "b"] [] "a" "b" (fun _ => false)
      (by decide) (by decide) (by decide)).2.1,
    (C8_move_success ["a", "b"] [] "a" "b" (fun _ => false)
      (by decide) (by decide) (by decide)).2.2.1⟩

/-- C4 counterexample to the claim as stated: the `for _ in range(2)` loop
has no `break`, so even when the first `shutil.rmtree` succeeds a second
`rmtree` call is still made — retrying beyond a successful attempt — and
that second call fails (the directory is already gone) with an error that is
merely logged. -/
theorem C4_counterexample :
    (handle_delete (fun _ => RmOut.ok)).rmtreeCalls = 2 ∧
    (handle_delete (fun _ => RmOut.ok)).events =
      [DEv.stopAll, DEv.rmtreeOk, DEv.rmtreeOtherFail] := by
  decide

/-- C4 (amended): when the Relocation Handler processes a delete-pending
signal whose previous root exists and is a directory, it stops all
recordings first, then makes exactly two recursive-deletion attempts
regardless of success (a second attempt after a successful first one raises
an error that is only logged), with a short backoff exactly after a
locking/permission failure of an attempt that ran against an existing
directory; any other error is logged, and the `rm.flag` signal file is
deleted afterwards in every case. -/
theorem C4_delete_two_attempts (outcome : Nat → RmOut) :
    (handle_delete outcome).events.head? = some DEv.stopAll ∧
    (handle_delete outcome).rmtreeCalls = 2 ∧
    (handle_delete outcome).rmFlagAfter = false ∧
    ((handle_delete outcome).dirDeleted = true ↔
      outcome 0 = RmOut.ok ∨ (outcome 0 ≠ RmOut.ok ∧ outcome 1 = RmOut.ok)) ∧
    (DEv.sleep5 ∈ (handle_delete outcome).events ↔
      outcome 0 = RmOut.permErr ∨
        (outcome 0 ≠ RmOut.ok ∧ outcome 1 = RmOut.permErr)) ∧
    (outcome 0 = RmOut.ok →
      (handle_delete outcome).events =
        [DEv.stopAll, DEv.rmtreeOk, DEv.rmtreeOtherFail]) := by
  cases h0 : outcome 0 <;> cases h1 : outcome 1 <;>
    simp [handle_delete, rmAttempt, h0, h1]

/-! ### Claim theorems: control loop exception behaviour -/

theorem restartForLoop_exc (e2 : String) :
    ∀ pre : List StartOut, (∀ o ∈ pre, ∃ b, o = StartOut.ret b) →
      ∀ post : List StartOut,
        (restartForLoop (pre ++ StartOut.exc e2 :: post)).1 = pre.length + 1 ∧
        (restartForLoop (pre ++ StartOut.exc e2 :: post)).2.2 = some e2
  | [], _, post => by simp [restartForLoop]
  | o :: pre, h, post => by
    obtain ⟨b, rfl⟩ := h o (List.mem_cons_self o pre)
    have ih := restartForLoop_exc e2 pre
      (fun o' ho' => h o' (List.mem_cons_of_mem _ ho')) post
    simp [restartForLoop, ih.1, ih.2]

/-- C2 counterexample to the claim as stated: the only `except` around the
`while True` body of `Command.handle` names `KeyboardInterrupt`, so an
ordinary exception escaping step 2 or 3 (here a `ValueError` in tick 0)
terminates the loop; and the `for` loop of `Command.restart` has no
per-source `try`, so with two sources where starting the first raises an
`OSError`, only one start call is made — the second source is never
started. -/
theorem C2_counterexample :
    runHandle (fun t => if t = 0 then some (PyExc.error "ValueError") else none)
        0 5 = LoopExit.crashed "ValueError" ∧
    restartForLoop [StartOut.exc "OSError", StartOut.ret true] =
      (1, 0, some "OSError") := by
  decide

/-- C2 (amended): the control loop catches only `KeyboardInterrupt` (which
ends the service); any other exception escaping the Relocation Handler
(step 2) or the Retention Engine (step 3) during a tick propagates out of
`handle` and terminates the loop.  An exception raised while starting the
subprocess for a single source propagates out of `restart`, aborting the
starts of the remaining sources: exactly the sources before the failing one
plus the failing call itself are attempted. -/
theorem C2_exceptions_terminate (exc : Nat → Option PyExc) (t fuel : Nat)
    (e : String) (h : exc t = some (PyExc.error e))
    (pre post : List StartOut) (e2 : String)
    (hpre : ∀ o ∈ pre, ∃ b, o = StartOut.ret b) :
    runHandle exc t (fuel + 1) = LoopExit.crashed e ∧
    (restartForLoop (pre ++ StartOut.exc e2 :: post)).1 = pre.length + 1 ∧
    (restartForLoop (pre ++ StartOut.exc e2 :: post)).2.2 = some e2 := by
  refine ⟨?_, (restartForLoop_exc e2 pre hpre post).1,
    (restartForLoop_exc e2 pre hpre post).2⟩
  simp [runHandle, h]

/-- C2 witness: a `ValueError` in tick 3 crashes the loop; an `OSError` on
the second of three sources leaves the third unattempted. -/
theorem C2_witness :
    (fun t => if t = 3 then some (PyExc.error "ValueError") else none) 3 =
      some (PyExc.error "ValueError") ∧
    (∀ o ∈ [StartOut.ret true], ∃ b, o = StartOut.ret b) ∧
    runHandle (fun t => if t = 3 then some (PyExc.error "ValueError") else none)
      3 7 = LoopExit.crashed "ValueError" ∧
    (restartForLoop [StartOut.ret true, StartOut.exc "OSError", StartOut.ret false]).1 = 2 :=
  ⟨by decide, by simp,
    (C2_exceptions_terminate
      (fun t => if t = 3 then some (PyExc.error "ValueError") else none)
      3 6 "ValueError" (by decide)
      [StartOut.ret true] [StartOut.ret false] "OSError"
      (by simp)).1,
    (C2_exceptions_terminate
      (fun t => if t = 3 then some (PyExc.error "ValueError") else none)
      3 6 "ValueError" (by decide)
      [StartOut.ret true] [StartOut.ret false] "OSError"
      (by simp)).2.1⟩

/-! ### Claim theorems: retention engine -/

/-- Characterization of the deletion loop: either some measurement taken
after a deletion satisfies the threshold — then the loop deletes exactly up
to the first such point and breaks — or no measurement does and the loop
deletes every candidate without breaking. -/
theorem evictLoop_spec (m : Nat) (measure : Nat → Nat) :
    ∀ (fs : List FileEnt) (k : Nat),
      (∃ j, j < fs.length ∧ satisfied m (measure (k + 1 + j)) = true ∧
        (∀ i, i < j → satisfied m (measure (k + 1 + i)) = false) ∧
        evictLoop m measure fs k =
          ((fs.take (j + 1)).map (fun f => REv.del f.name), k + 1 + j, true)) ∨
      ((∀ i, i < fs.length → satisfied m (measure (k + 1 + i)) = false) ∧
        evictLoop m measure fs k =
          (fs.map (fun f => REv.del f.name), k + fs.length, false)) := by
  intro fs
  induction fs with
  | nil =>
    intro k
    exact Or.inr ⟨fun i hi => absurd hi (Nat.not_lt_zero i), by simp [evictLoop]⟩
  | cons f rest ih =>
    intro k
    cases hs : satisfied m (measure (k + 1)) with
    | true =>
      refine Or.inl ⟨0, Nat.succ_pos _, by simpa using hs,
        fun i hi => absurd hi (Nat.not_lt_zero i), ?_⟩
      simp [evictLoop, hs]
    | false =>
      rcases ih (k + 1) with ⟨j, hj, hsat, hbefore, heq⟩ | ⟨hall, heq⟩
      · refine Or.inl ⟨j + 1, by simpa using Nat.succ_lt_succ hj, ?_, ?_, ?_⟩
        · rw [show k + 1 + (j + 1) = k + 1 + 1 + j from by omega]
          exact hsat
        · intro i hi
          cases i with
          | zero => simpa using hs
          | succ i' =>
            rw [show k + 1 + (i' + 1) = k + 1 + 1 + i' from by omega]
            exact hbefore i' (by omega)
        · rw [show k + 1 + (j + 1) = k + 1 + 1 + j from by omega]
          simp [evictLoop, hs, heq, List.take_succ_cons]
      · refine Or.inr ⟨?_, ?_⟩
        · intro i hi
          cases i with
          | zero => simpa using hs
          | succ i' =>
            rw [show k + 1 + (i' + 1) = k + 1 + 1 + i' from by omega]
            exact hall i' (by simpa using hi)
        · rw [show k + (f :: rest).length = k + 1 + rest.length from by simp; omega]
          simp [evictLoop, hs, heq]

/-- C1 (amended): for every run of the Retention Engine with threshold
`> 0`, free space initially below the threshold, `K` eviction-eligible
segment files, and the stop signal file absent at the start of the run:
the candidates are processed in ascending last-modification-time order
(the processed list is a permutation of the candidates, sorted by mtime);
the deleted files are exactly the first `filesDeleted` of that sorted list,
never more than `K`; each measurement taken after a deletion but before the
stopping point is still below the threshold (so deletion stops as soon as a
re-measurement meets the threshold); the loop stops only because a
measurement met the threshold or the candidates were exhausted; and the
stop signal file is present afterwards if and only if every measurement of
the pass — including the one after the last possible deletion, and the
initial one when `K = 0` — was below the threshold. -/
theorem C1_retention (minFreeGb : Nat) (measure : Nat → Nat)
    (files : List FileEnt) (out : CleanupOut)
    (hpos : 0 < minFreeGb)
    (hlow : satisfied minFreeGb (measure 0) = false)
    (hout : out = cleanup_old_files minFreeGb measure files false) :
    List.Perm (sortByMtime files) files ∧
    List.Sorted mtimeLE (sortByMtime files) ∧
    out.filesDeleted ≤ files.length ∧
    out.events =
      (if files.length = 0 then ([] : List REv) else [REv.stopAll]) ++
        ((sortByMtime files).take out.filesDeleted).map
          (fun f => REv.del f.name) ∧
    (∀ j, 0 < j → j < out.filesDeleted →
      satisfied minFreeGb (measure j) = false) ∧
    (satisfied minFreeGb (measure out.filesDeleted) = true ∨
      out.filesDeleted = files.length) ∧
    (out.stopFlag = true ↔
      ∀ j, j ≤ files.length → satisfied minFreeGb (measure j) = false) := by
  subst hout
  have hne : ¬ minFreeGb = 0 := by omega
  have hperm : List.Perm (sortByMtime files) files :=
    List.perm_insertionSort mtimeLE files
  have hsorted : List.Sorted mtimeLE (sortByMtime files) :=
    List.sorted_insertionSort mtimeLE files
  have hKlen : (sortByMtime files).length = files.length := hperm.length_eq
  rcases evictLoop_spec minFreeGb measure (sortByMtime files) 0 with
    ⟨j, hj, hsat, hbefore, heq⟩ | ⟨hall, heq⟩
  · -- some measurement met the threshold: break at the first such point
    rw [show (0 : Nat) + 1 + j = j + 1 from by omega] at heq hsat
    have hfsne : (sortByMtime files).isEmpty = false := by
      cases hfs : sortByMtime files with
      | nil => rw [hfs] at hj; simp at hj
      | cons a l => simp
    have hKne : ¬ files.length = 0 := by omega
    have hcl : cleanup_old_files minFreeGb measure files false =
        ⟨[REv.stopAll] ++
          ((sortByMtime files).take (j + 1)).map (fun f => REv.del f.name),
          false, j + 1⟩ := by
      simp [cleanup_old_files, hne, hlow, heq, hfsne]
    rw [hcl]
    refine ⟨hperm, hsorted, by simpa using by omega, by simp [hKne], ?_, ?_, ?_⟩
    · intro j' h0 hD
      simp only at hD
      rw [show j' = 0 + 1 + (j' - 1) from by omega]
      exact hbefore (j' - 1) (by omega)
    · exact Or.inl hsat
    · simp only
      constructor
      · intro h; exact absurd h (by simp)
      · intro hf
        have := hf (j + 1) (by omega)
        rw [this] at hsat
        exact absurd hsat (by simp)
  · -- no measurement met the threshold: every candidate deleted, flag set
    rw [show (0 : Nat) + (sortByMtime files).length = files.length from by omega]
      at heq
    have hcl : cleanup_old_files minFreeGb measure files false =
        ⟨(if (sortByMtime files).isEmpty then [] else [REv.stopAll]) ++
          (sortByMtime files).map (fun f => REv.del f.name),
          true, files.length⟩ := by
      simp [cleanup_old_files, hne, hlow, heq]
    rw [hcl]
    refine ⟨hperm, hsorted, le_refl _, ?_, ?_, Or.inr rfl, ?_⟩
    · simp only
      have htake : (sortByMtime files).take files.length = sortByMtime files := by
        rw [← hKlen]; exact List.take_length _
      rw [htake]
      cases hfs : sortByMtime files with
      | nil =>
        have : files.length = 0 := by rw [← hKlen, hfs]; rfl
        simp [this, hfs]
      | cons a l =>
        have : ¬ files.length = 0 := by
          rw [← hKlen, hfs]; simp
        simp [this, hfs]
    · intro j' h0 hD
      simp only at hD
      rw [show j' = 0 + 1 + (j' - 1) from by omega]
      exact hall (j' - 1) (by omega)
    · simp only
      constructor
      · intro _ j' hj'
        cases j' with
        | zero => exact hlow
        | succ i =>
          rw [show i + 1 = 0 + 1 + i from by omega]
          exact hall i (by omega)
      · intro _; trivial

/-- Free-space oracle for the C1 counterexample: below threshold before the
pass, far above it after the single deletion. -/
def cexMeasureFlag : Nat → Nat := fun k => if k = 0 then 0 else 2 ^ 31

/-- C1 counterexample to the claim as stated: the claim quantifies over
every run with threshold `> 0`, free space below threshold and `K`
eligible files, and asserts the stop signal is present afterwards only if
free space is still below threshold after exhausting all candidates.  But
`cleanup_old_files` never removes a pre-existing `stop.flag`: in a run that
starts with the flag present (threshold 1 GB, initial free 0, one file
whose deletion raises free space to 2 GB ≥ threshold), the threshold is met
at the final measurement, yet the flag is still present afterwards. -/
theorem C1_counterexample :
    satisfied 1 (cexMeasureFlag 0) = false ∧
    satisfied 1 (cexMeasureFlag 1) = true ∧
    (cleanup_old_files 1 cexMeasureFlag [⟨"a", 0⟩] true).filesDeleted = 1 ∧
    (cleanup_old_files 1 cexMeasureFlag [⟨"a", 0⟩] true).stopFlag = true := by
  decide

/-- Free-space oracle for the retention witnesses: 0 bytes until two files
have been deleted, then 2 GB. -/
def wMeasure : Nat → Nat := fun k => if 2 ≤ k then 2 ^ 31 else 0

/-- Candidate files for the retention witnesses (unsorted on purpose). -/
def wFiles : List FileEnt := [⟨"b", 5⟩, ⟨"a", 3⟩, ⟨"c", 9⟩]

/-- The retention pass of the witness run: stop, delete the two oldest
files, meet the threshold, leave the stop flag untouched. -/
def wOut : CleanupOut :=
  ⟨[REv.stopAll, REv.del "a", REv.del "b"], false, 2⟩

/-- C1 witness: the amended theorem applied to the concrete witness run. -/
theorem C1_witness :
    0 < 1 ∧ satisfied 1 (wMeasure 0) = false ∧
    wOut = cleanup_old_files 1 wMeasure wFiles false ∧
    wOut.filesDeleted ≤ wFiles.length :=
  ⟨by decide, by decide, by decide,
    (C1_retention 1 wMeasure wFiles wOut (by decide) (by decide)
      (by decide)).2.2.1⟩

theorem evictLoop_events_del (m : Nat) (measure : Nat → Nat) :
    ∀ (fs : List FileEnt) (k : Nat), ∃ ns : List String,
      (evictLoop m measure fs k).1 = ns.map REv.del
  | [], _ => ⟨[], rfl⟩
  | f :: fs, k => by
    cases hs : satisfied m (measure (k + 1)) with
    | true => exact ⟨[f.name], by simp [evictLoop, hs]⟩
    | false =>
      obtain ⟨ns, hns⟩ := evictLoop_events_del m measure fs (k + 1)
      exact ⟨f.name :: ns, by simp [evictLoop, hs, hns]⟩

theorem replayRecs_dels :
    ∀ l : List REv, (∀ e ∈ l, ∃ n, e = REv.del n) →
      replayRecs ([] : List Recorder) l = []
  | [], _ => rfl
  | e :: l, h => by
    obtain ⟨n, rfl⟩ := h e (List.mem_cons_self e l)
    exact replayRecs_dels l (fun e' he' => h e' (List.mem_cons_of_mem _ he'))

theorem cleanup_events_shape (minFreeGb : Nat) (measure : Nat → Nat)
    (files : List FileEnt) (s0 : Bool) :
    (cleanup_old_files minFreeGb measure files s0).events = [] ∨
    ∃ ns : List String,
      (cleanup_old_files minFreeGb measure files s0).events =
        REv.stopAll :: ns.map REv.del := by
  by_cases h0 : minFreeGb = 0
  · left; simp [cleanup_old_files, h0]
  · cases h1 : satisfied minFreeGb (measure 0) with
    | true => left; simp [cleanup_old_files, h0, h1]
    | false =>
      cases hfs : sortByMtime files with
      | nil =>
        left
        simp [cleanup_old_files, h0, h1, hfs, evictLoop]
      | cons f l =>
        right
        obtain ⟨ns, hns⟩ :=
          evictLoop_events_del minFreeGb measure (sortByMtime files) 0
        refine ⟨ns, ?_⟩
        have hns' : (evictLoop minFreeGb measure (f :: l) 0).1 = ns.map REv.del := by
          rw [← hfs]; exact hns
        simp [cleanup_old_files, h0, h1, hfs, hns']

/-- C5: during any retention pass, no segment file is deleted while a
tracked capture subprocess is still running.  Whatever prefix of the
retention event trace precedes a file deletion, replaying it against any
initial tracked-recorder list leaves the tracked set empty: the
unconditional stop of all recordings comes before the first deletion. -/
theorem C5_stop_before_delete (minFreeGb : Nat) (measure : Nat → Nat)
    (files : List FileEnt) (s0 : Bool) (recs0 : List Recorder)
    (pre suf : List REv) (f : String)
    (hsplit : (cleanup_old_files minFreeGb measure files s0).events =
      pre ++ REv.del f :: suf) :
    replayRecs recs0 pre = [] := by
  rcases cleanup_events_shape minFreeGb measure files s0 with hnil | ⟨ns, hns⟩
  · rw [hsplit] at hnil
    exact absurd hnil (by simp)
  · rw [hsplit] at hns
    cases pre with
    | nil => simp at hns
    | cons p pre' =>
      rw [List.cons_append] at hns
      injection hns with hp htail
      subst hp
      show replayRecs ([] : List Recorder) pre' = []
      have hmem : ∀ e ∈ pre', ∃ n, e = REv.del n := by
        intro e he
        have : e ∈ ns.map REv.del := by
          rw [← htail]; exact List.mem_append_left _ he
        obtain ⟨n, _, hn⟩ := List.mem_map.mp this
        exact ⟨n, hn.symm⟩
      exact replayRecs_dels pre' hmem

/-- C5 witness: the concrete witness run deletes `"a"` after the stop-all
event, and replaying that prefix empties a nonempty tracked set. -/
theorem C5_witness :
    (cleanup_old_files 1 wMeasure wFiles false).events =
      [REv.stopAll] ++ REv.del "a" :: [REv.del "b"] ∧
    replayRecs [Recorder.init 1] [REv.stopAll] = ([] : List Recorder) :=
  ⟨by decide,
    C5_stop_before_delete 1 wMeasure wFiles false [Recorder.init 1]
      [REv.stopAll] [REv.del "b"] "a" (by decide)⟩

/-! ### Remaining concrete witnesses -/

/-- Resolvability oracle: only source 1 has a resolvable capture binary. -/
def wFfmpeg : Nat → Bool := fun s => s == 1

/-- Resolvability oracle: no source has a resolvable capture binary. -/
def wFfmpegOff : Nat → Bool := fun _ => false

/-- Deletion-outcome oracle: every `rmtree` attempt succeeds. -/
def wRmOk : Nat → RmOut := fun _ => RmOut.ok

/-- C6 witness: two sources, of which only the first starts successfully —
two start attempts, one started, both flags cleared. -/
theorem C6_witness :
    (Cmd.restart ⟨[], true, true⟩ [1, 2] wFfmpeg (fun _ => true)).2.2.1 = 2 ∧
    (Cmd.restart ⟨[], true, true⟩ [1, 2] wFfmpeg (fun _ => true)).2.1 = 1 ∧
    (Cmd.restart ⟨[], true, true⟩ [1, 2] wFfmpeg (fun _ => true)).1.stopFlag = false :=
  ⟨(C6_restart_all ⟨[], true, true⟩ [1, 2] wFfmpeg (fun _ => true)).1,
    (C6_restart_all ⟨[], true, true⟩ [1, 2] wFfmpeg (fun _ => true)).2.1,
    (C6_restart_all ⟨[], true, true⟩ [1, 2] wFfmpeg (fun _ => true)).2.2.1⟩

/-- C7 witness: a concrete successful start followed by a stop leaves no
running subprocess, and a second stop is a no-op. -/
theorem C7_witness :
    (((Recorder.init 3).start true).2.1.stop false).1.process = none ∧
    (((Recorder.init 3).start true).2.1.stop false).1.stop true =
      ((((Recorder.init 3).start true).2.1.stop false).1, []) :=
  ⟨(C7_stop_idempotent (Recorder.init 3) false true).2.1,
    (C7_stop_idempotent (Recorder.init 3) false true).2.2.2⟩

/-- C9 witness: a concrete failed start returns false yet leaves the log
handle open. -/
theorem C9_witness :
    ((Recorder.init 4).start false).1 = false ∧
    ((Recorder.init 4).start false).2.1.logfile = true :=
  ⟨(C9_failed_start_side_effects (Recorder.init 4)).1,
    (C9_failed_start_side_effects (Recorder.init 4)).2.2.2.2.2.2⟩

/-- C10 witness: one source whose start fails still yields one tracked
handle, with no subprocess and an open log sink. -/
theorem C10_witness :
    wFfmpegOff 5 = false ∧
    ((Recorder.init 5).start (wFfmpegOff 5)).2.1 = (⟨5, none, true⟩ : Recorder) ∧
    (Cmd.restart ⟨[], false, false⟩ [5] wFfmpegOff (fun _ => true)).1.recorders.length = 1 :=
  ⟨rfl,
    (C10_tracked_handles ⟨[], false, false⟩ [5] wFfmpegOff (fun _ => true)).2.2.1 5 rfl,
    (C10_tracked_handles ⟨[], false, false⟩ [5] wFfmpegOff (fun _ => true)).2.1⟩

/-- C4 witness: the amended theorem applied to a run whose first `rmtree`
succeeds. -/
theorem C4_witness :
    (handle_delete wRmOk).rmFlagAfter = false ∧
    (handle_delete wRmOk).events =
      [DEv.stopAll, DEv.rmtreeOk, DEv.rmtreeOtherFail] :=
  ⟨(C4_delete_two_attempts wRmOk).2.2.1,
    (C4_delete_two_attempts wRmOk).2.2.2.2.2 rfl⟩

end Camrec
